import Mathlib

/-!
Verification development for the binary property-list (bplist) parser
of `node-bplist-parser` (`src/bplistParser.ts`).

The parser is shallowly embedded: byte buffers are `List Nat` (each element
the value of a `Uint8Array` cell, hence `% 256` wherever a byte is read),
fallible JavaScript code is `Except JSError`, and the recursive object walk
carries an explicit `fuel` argument standing for the JavaScript call stack
(the source has no cycle guard; on a cyclic object graph it overflows the
stack, which the embedding renders as `JSError.stackOverflow`).

Two variants of the parser appear in the repository: the current
`DataView`-based one (called V1 below, embedded as `parseBuffer` /
`parseObjectAt` and helpers) and an older variant whose big-endian reader
is a 32-bit fold and whose UTF-16 path byte-swaps a scratch copy (called V2
below, embedded as `readUIntV2`, `swapBytes`, `parsePlistString2`,
`parseDataV2`).  V1 is the primary source; V2 functions are embedded where
a claim explicitly concerns them.

Abridgements that do not affect any claim, noted where they occur:
quotation marks inside JavaScript error-message strings are elided;
IEEE-754 reals and dates are carried as their raw big-endian payload bytes
(no claim interprets them); text decoding is exact on ASCII and maps
multi-byte UTF-8 sequences and UTF-16 surrogates to U+FFFD.
-/

namespace BplistProof

/-- Failure modes of the JavaScript parser: `error` is a thrown
`new Error(msg)`; `rangeError` is an out-of-bounds `DataView` access;
`typeError` is `Array.prototype.reduce` applied to an empty array;
`syntaxError` is `BigInt()` applied to an invalid numeric string;
`stackOverflow` models unbounded recursion exhausting the call stack. -/
inductive JSError where
  | error (msg : String)
  | rangeError
  | typeError
  | syntaxError
  | stackOverflow
deriving DecidableEq

/-- Decoded plist value, the `Property` union of the source.  `integer` is a
JavaScript number produced by the 32-bit reduce path of `parseInteger`;
`bigint` is a `BigInt` produced by its 16-byte hex path; `real` and `date`
carry the raw big-endian payload bytes of the IEEE value (uninterpreted,
no claim concerns their numeric value); `dict` is the JavaScript object in
insertion order. -/
inductive Value where
  | null
  | bool (b : Bool)
  | integer (n : Int)
  | bigint (n : Int)
  | uid (id : Nat)
  | real (width : Nat) (bytes : List Nat)
  | date (bytes : List Nat)
  | data (bytes : List Nat)
  | string (s : String)
  | array (elems : List Value)
  | dict (entries : List (String × Value))

/-- Source constant `maxObjectSize = 100 ** 8` (the comment next to it in
the source says 100Meg, but `100 ** 8` is `10 ^ 16`). -/
def maxObjectSize : Nat := 100 ^ 8

/-- Source constant `maxObjectCount = 32768`. -/
def maxObjectCount : Nat := 32768

/-- ASCII bytes of the string `bplist`.  The source compares
`textDecoder.decode(buffer.subarray(0, 6))` with the string literal; since
that string is pure ASCII and UTF-8 decoding is injective on it (any other
byte sequence decodes to a different string, invalid bytes becoming
U+FFFD), the check is equivalent to comparing the first six bytes. -/
def magicBytes : List Nat := [0x62, 0x70, 0x6C, 0x69, 0x73, 0x74]

/-- Embeds `buffer.subarray(b, e)` on a `Uint8Array` with non-negative
arguments: both endpoints clamp to the buffer length and an empty slice
results when `b ≥ e`. -/
def jsSubarray (buffer : List Nat) (b e : Nat) : List Nat :=
  (buffer.take e).drop b

/-- Resolves a possibly negative JavaScript `subarray` index: negative
values count from the end of the array, and both directions clamp. -/
def clampIdx (len : Nat) (i : Int) : Nat :=
  if i < 0 then (if len ≤ (-i).toNat then 0 else len - (-i).toNat)
  else min i.toNat len

/-- Embeds `buffer.subarray(b, e)` with possibly negative arguments
(used only by the V2 functions, whose 32-bit reader can return a negative
length). -/
def jsSubarrayI (buffer : List Nat) (b e : Int) : List Nat :=
  (buffer.take (clampIdx buffer.length e)).drop (clampIdx buffer.length b)

/-- Big-endian value of a byte slice, most significant byte first.  The
`% 256` records the `Uint8Array` cell invariant. -/
def beVal (bytes : List Nat) : Nat :=
  bytes.foldl (fun acc b => 256 * acc + b % 256) 0

/-- Embeds `view.getUint8(i)` on a `DataView` of the whole buffer: an index
outside the view throws a `RangeError`. -/
def getUint8 (buffer : List Nat) (i : Int) : Except JSError Nat :=
  if 0 ≤ i ∧ i + 1 ≤ (buffer.length : Int) then .ok (buffer.getD i.toNat 0 % 256)
  else .error .rangeError

/-- Embeds `Number(view.getBigUint64(i, false))`: reads eight bytes
big-endian, throwing a `RangeError` when any of them is outside the view.
The `Number` conversion is exact below `2 ^ 53`; above it the rounding
cannot move a value across any bound used by the parser, so the embedding
keeps the exact value. -/
def getBigUint64 (buffer : List Nat) (i : Int) : Except JSError Nat :=
  if 0 ≤ i ∧ i + 8 ≤ (buffer.length : Int) then
    .ok (beVal (jsSubarray buffer i.toNat (i.toNat + 8)))
  else .error .rangeError

/-- Embeds the V1 `readUInt` (src/bplistParser.ts, lines 340-348): a
`switch` on the byte length of the slice that supports exactly the widths
1 (`getUint8`) and 2 (`getUint16` big-endian) and throws an `Error` for
every other width.  The quotation marks of the thrown message are
elided. -/
def readUInt (buffer : List Nat) : Except JSError Nat :=
  match buffer with
  | [b0] => .ok (b0 % 256)
  | [b0, b1] => .ok ((b0 % 256) * 256 + b1 % 256)
  | _ => .error (.error ("Unexpected Uint value length, support more than 1 or 2? Received "
      ++ toString buffer.length))

/-- Embeds the two-complement wrap `ToInt32` applied by the JavaScript
bitwise operators. -/
def toInt32 (n : Int) : Int := (n + 2 ^ 31) % 2 ^ 32 - 2 ^ 31

/-- Embeds the V2 `readUInt` (the fold `l <<= 8; l |= b & 0xFF` over the
slice, `start` defaulted to 0 at every call through a fresh slice).  Both
operators work on 32-bit signed integers: the shift is
`toInt32 (l * 256)`, whose low eight bits are zero, so the bitwise or with
`b & 0xFF` is addition and the sum stays inside the 32-bit range. -/
def readUIntV2 (buffer : List Nat) : Int :=
  buffer.foldl (fun l b => toInt32 (l * 256) + (b : Int) % 256) 0

/-- Lowercase hexadecimal digit, as produced by `Number.toString(16)`. -/
def hexDigitChar (n : Nat) : Char :=
  "0123456789abcdef".data.getD n (Char.ofNat 48)

/-- Single-digit hexadecimal rendering used in the unhandled-type error
message (`objType.toString(16)` of a nibble). -/
def hexDigitStr (n : Nat) : String := String.mk [hexDigitChar n]

/-- Embeds the body of the second loop of `bufferToHexString`: the
two-character zero-padded lowercase hexadecimal rendering of a byte
(`const part = "00" + b.toString(16); str += part.substr(part.length - 2)`,
which for `b < 256` is exactly the two digits below). -/
def hexPad2 (b : Nat) : String :=
  String.mk [hexDigitChar (b / 16), hexDigitChar (b % 16)]

/-- Embeds `bufferToHexString` (src/bplistParser.ts, lines 143-156): the
first loop skips leading zero bytes, the second appends the padded
hexadecimal rendering of every remaining byte. -/
def bufferToHexString (buffer : List Nat) : String :=
  String.join ((buffer.dropWhile (fun b => b == 0)).map hexPad2)

/-- Value of one hexadecimal character, `none` when the character is not a
hexadecimal digit. -/
def hexDigitVal (c : Char) : Option Nat :=
  if 48 ≤ c.toNat ∧ c.toNat ≤ 57 then some (c.toNat - 48)
  else if 97 ≤ c.toNat ∧ c.toNat ≤ 102 then some (c.toNat - 87)
  else if 65 ≤ c.toNat ∧ c.toNat ≤ 70 then some (c.toNat - 55)
  else none

/-- Embeds `BigInt("0x" + s)`: the hexadecimal digits after the prefix are
folded most significant first; an empty digit string (`BigInt("0x")`) or a
non-digit character throws a `SyntaxError`. -/
def bigIntOfHex (s : String) : Except JSError Int :=
  match s.data.mapM hexDigitVal with
  | none => .error .syntaxError
  | some [] => .error .syntaxError
  | some ds => .ok ((ds.foldl (fun acc d => 16 * acc + d) 0 : Nat) : Int)

/-- Unicode replacement character U+FFFD. -/
def replacementChar : Char := Char.ofNat 0xFFFD

/-- Modelled UTF-8 text decoding (`TextDecoder.decode`): exact on ASCII
bytes, which covers every string any claim touches; bytes of multi-byte
sequences are abstracted to the replacement character. -/
def decodeUtf8 (bytes : List Nat) : String :=
  String.mk (bytes.map (fun b => if b % 256 < 128 then Char.ofNat (b % 256) else replacementChar))

/-- Big-endian 16-bit code units of a byte list; a dangling final byte
decodes to a replacement unit, as a UTF-16 `TextDecoder` reports it. -/
def utf16beUnits : List Nat → List Nat
  | hi :: lo :: rest => ((hi % 256) * 256 + lo % 256) :: utf16beUnits rest
  | [_] => [0xFFFD]
  | [] => []

/-- Little-endian 16-bit code units of a byte list. -/
def utf16leUnits : List Nat → List Nat
  | lo :: hi :: rest => ((hi % 256) * 256 + lo % 256) :: utf16leUnits rest
  | [_] => [0xFFFD]
  | [] => []

/-- Character of a 16-bit code unit; surrogate halves are abstracted to the
replacement character (no claim involves astral characters). -/
def ucChar (u : Nat) : Char :=
  if 0xD800 ≤ u ∧ u ≤ 0xDFFF then replacementChar else Char.ofNat (u % 0x10000)

/-- Modelled big-endian UTF-16 decoding (`new TextDecoder("utf-16be")`). -/
def decodeUtf16be (bytes : List Nat) : String :=
  String.mk ((utf16beUnits bytes).map ucChar)

/-- Modelled little-endian UTF-16 decoding (`new TextDecoder("utf-16le")`). -/
def decodeUtf16le (bytes : List Nat) : String :=
  String.mk ((utf16leUnits bytes).map ucChar)

/-- Heap-guard error message thrown by the leaf decoders; quotation marks
elided. -/
def tooLittleHeap (n : Nat) : String :=
  "Too little heap space available! Wanted to read " ++ toString n
    ++ " bytes, but only " ++ toString maxObjectSize ++ " are available."

/-- Embeds the length-extension block shared verbatim by `parseData`,
`parsePlistString`, `parseArray` and `parseDictionary` (V1): a direct
length when `objInfo ≤ 14`; for the sentinel `0xF` the marker byte at
`offset + 1` gives the width exponent of a nested length integer read by
`readUInt` from `offset + 2`, and the payload starts `2 + 2 ^ exponent`
bytes into the object.  The `console.error` on a marker whose high nibble
is not 1 has no semantic effect, and the two branches of the source
`if (intLength < 3)` are identical; an out-of-range marker read
(`buffer[offset + 1]` being `undefined`) coerces to 0 under the bitwise
operators, exactly as `getD` with default 0 does.  Returns the length and
the payload offset within the object. -/
def lengthExt (buffer : List Nat) (offset objInfo : Nat) : Except JSError (Nat × Nat) :=
  if objInfo = 15 then
    let intType := buffer.getD (offset + 1) 0
    let intInfo := intType % 16
    let intLength := 2 ^ intInfo
    match readUInt (jsSubarray buffer (offset + 2) (offset + 2 + intLength)) with
    | .ok length => .ok (length, 2 + intLength)
    | .error e => .error e
  else .ok (objInfo, 1)

/-- Embeds `parseSimple`: the unhandled-simple message renders `objType`,
which is always 0 in this branch. -/
def parseSimple (objInfo : Nat) : Except JSError Value :=
  match objInfo with
  | 0 => .ok .null
  | 8 => .ok (.bool false)
  | 9 => .ok (.bool true)
  | 15 => .ok .null
  | _ => .error (.error "Unhandled simple type 0x0")

/-- Embeds `parseInteger` (src/bplistParser.ts, lines 158-174): payload
length `2 ^ objInfo`; a 16-byte payload goes through
`BigInt("0x" + bufferToHexString(data))`; any other length is folded by
`data.reduce((acc, curr) => { acc <<= 8; acc |= curr & 255; return acc })`,
whose missing initial value makes the first byte the seed (and makes an
empty payload throw a `TypeError`) and whose operators wrap at 32 bits. -/
def parseIntegerAt (buffer : List Nat) (offset objInfo : Nat) : Except JSError Value :=
  let length := 2 ^ objInfo
  if length < maxObjectSize then
    let data := jsSubarray buffer (offset + 1) (offset + 1 + length)
    if length = 16 then
      match bigIntOfHex (bufferToHexString data) with
      | .ok n => .ok (.bigint n)
      | .error e => .error e
    else
      match data with
      | [] => .error .typeError
      | b :: rest =>
        .ok (.integer (rest.foldl
          (fun acc curr => toInt32 (toInt32 (acc * 256) + (curr : Int) % 256)) ((b : Nat) % 256 : Nat)))
  else .error (.error (tooLittleHeap length))

/-- Embeds `parseUID`: payload length `objInfo + 1`, read by `readUInt`
(so only 1- and 2-byte UIDs decode in V1). -/
def parseUIDAt (buffer : List Nat) (offset objInfo : Nat) : Except JSError Value :=
  let length := objInfo + 1
  if length < maxObjectSize then
    match readUInt (jsSubarray buffer (offset + 1) (offset + 1 + length)) with
    | .ok n => .ok (.uid n)
    | .error e => .error e
  else .error (.error (tooLittleHeap length))

/-- Embeds `parseReal`: payload length `2 ^ objInfo`, only 4 and 8 valid;
the `DataView` float read throws a `RangeError` when the clamped slice is
shorter than the requested width.  The IEEE bytes are carried
uninterpreted. -/
def parseRealAt (buffer : List Nat) (offset objInfo : Nat) : Except JSError Value :=
  let length := 2 ^ objInfo
  if length < maxObjectSize then
    let realBuffer := jsSubarray buffer (offset + 1) (offset + 1 + length)
    if length = 4 then
      if 4 ≤ realBuffer.length then .ok (.real 4 realBuffer) else .error .rangeError
    else if length = 8 then
      if 8 ≤ realBuffer.length then .ok (.real 8 realBuffer) else .error .rangeError
    else .error (.error ("Length for real value should be 4 or 8, received " ++ toString length))
  else .error (.error (tooLittleHeap length))

/-- Embeds `parseDate`: eight payload bytes interpreted as a big-endian
float64 (carried uninterpreted); the `console.error` on `objInfo ≠ 3` has
no semantic effect; a short slice makes `getFloat64` throw a
`RangeError`. -/
def parseDateAt (buffer : List Nat) (offset : Nat) : Except JSError Value :=
  let dateBuffer := jsSubarray buffer (offset + 1) (offset + 9)
  if 8 ≤ dateBuffer.length then .ok (.date dateBuffer) else .error .rangeError

/-- Embeds `parseData` (V1): length extension, heap guard, then the raw
slice (clamped by `subarray`). -/
def parseDataAt (buffer : List Nat) (offset objInfo : Nat) : Except JSError Value :=
  match lengthExt buffer offset objInfo with
  | .error e => .error e
  | .ok (length, dataoffset) =>
    if length < maxObjectSize then
      .ok (.data (jsSubarray buffer (offset + dataoffset) (offset + dataoffset + length)))
    else .error (.error (tooLittleHeap length))

/-- Embeds `parsePlistString` (V1): length extension counts characters,
doubled for UTF-16; the slice is copied (`new Uint8Array(...)`) and decoded
as UTF-8 or big-endian UTF-16. -/
def parsePlistStringAt (buffer : List Nat) (offset objInfo : Nat) (isUtf16 : Bool) :
    Except JSError Value :=
  let charLength : Nat := if isUtf16 then 1 else 0
  match lengthExt buffer offset objInfo with
  | .error e => .error e
  | .ok (len0, stroffset) =>
    let length := len0 * (charLength + 1)
    if length < maxObjectSize then
      let plistString := jsSubarray buffer (offset + stroffset) (offset + stroffset + length)
      if charLength ≠ 0 then .ok (.string (decodeUtf16be plistString))
      else .ok (.string (decodeUtf8 plistString))
    else .error (.error (tooLittleHeap length))

/-- Embeds the JavaScript object assignment `dict[key] = val`: an existing
key keeps its position and receives the new value, a fresh key is appended.
Keys in the decoded dictionaries are plain strings, for which property
assignment is string-keyed. -/
def jsObjectSet (d : List (String × Value)) (k : String) (v : Value) : List (String × Value) :=
  if d.any (fun kv => kv.1 == k) then d.map (fun kv => if kv.1 == k then (k, v) else kv)
  else d ++ [(k, v)]

/-- Sequential effectful map over a list of indices, embedding the
container `for` loops of the parser: the first thrown error aborts the
whole loop. -/
def exList {α : Type} (f : Nat → Except JSError α) : List Nat → Except JSError (List α)
  | [] => .ok []
  | i :: is =>
    match f i with
    | .error e => .error e
    | .ok y =>
      match exList f is with
      | .error e => .error e
      | .ok ys => .ok (y :: ys)

/-- Embeds `parseObject` (V1, src/bplistParser.ts, lines 96-335) with an
explicit fuel standing for the JavaScript call stack.  A table index
outside the offset table makes `offsetTable[tableOffset]` `undefined`,
`buffer[undefined]` `undefined`, and both nibbles of `undefined` coerce to
0, so the dispatch lands in `parseSimple` with `objInfo = 0` and yields
`null`; the same happens for an offset beyond the buffer, matching
`getD _ 0`.  The array and dictionary branches inline their loops:
references are read with `readUInt` (width `objectRefSize`) and resolved
recursively; a dictionary key that is not a string throws before its value
is parsed, and entries are inserted in loop order with `jsObjectSet`. -/
def parseObjectAt (buffer offsetTable : List Nat) (objectRefSize : Nat) :
    Nat → Nat → Except JSError Value
  | 0, _ => .error .stackOverflow
  | fuel + 1, tableOffset =>
    match offsetTable.get? tableOffset with
    | none => .ok .null
    | some offset =>
      let type := buffer.getD offset 0
      let objType := type / 16
      let objInfo := type % 16
      match objType with
      | 0 => parseSimple objInfo
      | 1 => parseIntegerAt buffer offset objInfo
      | 8 => parseUIDAt buffer offset objInfo
      | 2 => parseRealAt buffer offset objInfo
      | 3 => parseDateAt buffer offset
      | 4 => parseDataAt buffer offset objInfo
      | 5 => parsePlistStringAt buffer offset objInfo false
      | 6 => parsePlistStringAt buffer offset objInfo true
      | 10 =>
        (match lengthExt buffer offset objInfo with
        | .error e => .error e
        | .ok (length, arrayoffset) =>
          if length * objectRefSize > maxObjectSize then
            .error (.error "Too little heap space available!")
          else
            match exList (fun i =>
                match readUInt (jsSubarray buffer (offset + arrayoffset + i * objectRefSize)
                    (offset + arrayoffset + (i + 1) * objectRefSize)) with
                | .error e => .error e
                | .ok objRef => parseObjectAt buffer offsetTable objectRefSize fuel objRef)
                (List.range length) with
            | .error e => .error e
            | .ok elems => .ok (.array elems))
      | 13 =>
        (match lengthExt buffer offset objInfo with
        | .error e => .error e
        | .ok (length, dictoffset) =>
          if length * 2 * objectRefSize > maxObjectSize then
            .error (.error "Too little heap space available!")
          else
            match exList (fun i =>
                match readUInt (jsSubarray buffer (offset + dictoffset + i * objectRefSize)
                    (offset + dictoffset + (i + 1) * objectRefSize)) with
                | .error e => .error e
                | .ok keyRef =>
                  match readUInt (jsSubarray buffer
                      (offset + dictoffset + length * objectRefSize + i * objectRefSize)
                      (offset + dictoffset + length * objectRefSize + (i + 1) * objectRefSize)) with
                  | .error e => .error e
                  | .ok valRef =>
                    match parseObjectAt buffer offsetTable objectRefSize fuel keyRef with
                    | .error e => .error e
                    | .ok (.string s) =>
                      (match parseObjectAt buffer offsetTable objectRefSize fuel valRef with
                      | .error e => .error e
                      | .ok val => .ok (s, val))
                    | .ok _ =>
                      .error (.error "Parsed unexpected property key type, should be a string."))
                (List.range length) with
            | .error e => .error e
            | .ok pairs =>
              .ok (.dict (pairs.foldl (fun d kv => jsObjectSet d kv.1 kv.2) [])))
      | _ => .error (.error ("Unhandled type 0x" ++ hexDigitStr objType))

/-- Embeds `parseBuffer` (V1, src/bplistParser.ts, lines 44-338): magic
check, trailer fields read through the `DataView` at fixed offsets from
`buffer.byteLength - 32` (negative when the buffer is short, which the
`DataView` reads turn into a `RangeError`), object-count guard, offset
table built with `readUInt` over `offsetSize`-wide slices, then the
recursive walk from `topObject`.  The fuel `buffer.length + 2` exceeds the
depth of every terminating run: a fully built offset table forces
`numObjects ≤ buffer.length`, and a terminating recursion never revisits a
table index on one branch, so its depth is at most `numObjects + 1`. -/
def parseBuffer (buffer : List Nat) : Except JSError Value :=
  if buffer.take 6 ≠ magicBytes then
    .error (.error "Invalid binary plist. Expected bplist at offset 0.")
  else
    let trailerOffset : Int := (buffer.length : Int) - 32
    match getUint8 buffer (trailerOffset + 6) with
    | .error e => .error e
    | .ok offsetSize =>
      match getUint8 buffer (trailerOffset + 7) with
      | .error e => .error e
      | .ok objectRefSize =>
        match getBigUint64 buffer (trailerOffset + 8) with
        | .error e => .error e
        | .ok numObjects =>
          match getBigUint64 buffer (trailerOffset + 16) with
          | .error e => .error e
          | .ok topObject =>
            match getBigUint64 buffer (trailerOffset + 24) with
            | .error e => .error e
            | .ok offsetTableOffset =>
              if numObjects > maxObjectCount then .error (.error "maxObjectCount exceeded")
              else
                match exList (fun i =>
                    readUInt (jsSubarray buffer (offsetTableOffset + i * offsetSize)
                      (offsetTableOffset + (i + 1) * offsetSize))) (List.range numObjects) with
                | .error e => .error e
                | .ok offsetTable =>
                  parseObjectAt buffer offsetTable objectRefSize (buffer.length + 2) topObject

/-- Embeds the V2 `swapBytes` (src/bplistParser.ts, lines 706-716), which
swaps the bytes of its argument in place pairwise.  On an odd-length array
the final iteration reads `buffer[len]` (`undefined`, stored as 0 by the
typed array) and writes the saved byte past the end (ignored), so the last
byte becomes 0. -/
def swapBytes : List Nat → List Nat
  | a :: b :: rest => b :: a :: swapBytes rest
  | [_] => [0]
  | [] => []

/-- Embeds the V2 length-extension block (identical to `lengthExt` except
that the nested length integer is read by the fold `readUIntV2`, which
never throws but wraps at 32 bits). -/
def lengthExtV2 (buffer : List Nat) (offset objInfo : Nat) : Int × Nat :=
  if objInfo = 15 then
    let intType := buffer.getD (offset + 1) 0
    let intInfo := intType % 16
    let intLength := 2 ^ intInfo
    (readUIntV2 (jsSubarray buffer (offset + 2) (offset + 2 + intLength)), 2 + intLength)
  else ((objInfo : Int), 1)

/-- Embeds the V2 `parsePlistString` (src/bplistParser.ts, lines 581-612)
in state-passing form: the second component of the result is the caller
buffer as observable after the call.  The decoded slice is a copy —
`new Uint8Array(buffer.subarray(...))` with a typed-array argument
allocates fresh storage — so `swapBytes`, which mutates its argument in
place, only ever touches that private scratch copy and the caller buffer
is returned unchanged on every path. -/
def parsePlistString2 (buffer : List Nat) (offset objInfo : Nat) (isUtf16 : Bool) :
    Except JSError String × List Nat :=
  let charLength : Nat := if isUtf16 then 1 else 0
  let ext := lengthExtV2 buffer offset objInfo
  let length := ext.1 * ((charLength : Int) + 1)
  let stroffset := ext.2
  if length < (maxObjectSize : Int) then
    let plistString := jsSubarrayI buffer ((offset : Int) + stroffset)
      ((offset : Int) + stroffset + length)
    if charLength ≠ 0 then (.ok (decodeUtf16le (swapBytes plistString)), buffer)
    else (.ok (decodeUtf8 plistString), buffer)
  else (.error (.error (tooLittleHeap length.toNat)), buffer)

/-- Embeds the V2 `parseData` (src/bplistParser.ts, lines 557-579), whose
nested length integer is read by the 32-bit fold `readUIntV2`: a declared
length of up to `2 ^ 31 - 1` bytes passes the `length < maxObjectSize`
guard whenever it is below `100 ** 8 = 10 ^ 16`, and the clamped
`subarray` then yields a truncated payload instead of a failure. -/
def parseDataV2 (buffer : List Nat) (offset objInfo : Nat) : Except JSError Value :=
  let ext := lengthExtV2 buffer offset objInfo
  let length := ext.1
  let dataoffset := ext.2
  if length < (maxObjectSize : Int) then
    .ok (.data (jsSubarrayI buffer ((offset : Int) + dataoffset)
      ((offset : Int) + dataoffset + length)))
  else .error (.error (tooLittleHeap length.toNat))

/-! ## Concrete buffers used by the claims -/

/-- Buffer of 37 bytes (fewer than the 38 of magic plus trailer) that
decodes successfully: valid magic, trailer overlapping the header,
`numObjects = 1`, `offsetSize = objectRefSize = 1`, offset table at byte
10 pointing at byte 8, which holds the simple object `false` (0x08). -/
def c2buf : List Nat :=
  [0x62, 0x70, 0x6C, 0x69, 0x73, 0x74, 0, 0, 0x08, 0, 8, 1, 1,
   0, 0, 0, 0, 0, 0, 0, 1,
   0, 0, 0, 0, 0, 0, 0, 0,
   0, 0, 0, 0, 0, 0, 0, 10]

/-- Well-formed 38-byte buffer whose trailer declares
`numObjects = 40000 = 0x9C40`. -/
def c4buf : List Nat :=
  [0x62, 0x70, 0x6C, 0x69, 0x73, 0x74, 0, 0, 0, 0, 0, 0, 1, 1,
   0, 0, 0, 0, 0, 0, 0x9C, 0x40,
   0, 0, 0, 0, 0, 0, 0, 0,
   0, 0, 0, 0, 0, 0, 0, 0]

/-- Data object (tag 0x4, extended length marker 0x12 = four length bytes)
declaring a payload of 0x3B9ACA00 = 1,000,000,000 bytes, followed by only
four actual bytes. -/
def c3buf : List Nat := [0x4F, 0x12, 0x3B, 0x9A, 0xCA, 0x00, 1, 2, 3, 4]

/-- Plist whose top object is an array in the extended length form
(0xAF, marker 0x10, count 20) of twenty one-byte integers 1..20;
`offsetSize = objectRefSize = 1`, offset table at byte 71, 21 objects. -/
def c7buf : List Nat :=
  magicBytes ++ [0, 0] ++
  ([0xAF, 0x10, 20] ++ (List.range 20).map (fun i => i + 1)) ++
  ((List.range 20).map (fun k => [0x10, k + 1])).flatten ++
  ([8] ++ (List.range 20).map (fun k => 31 + 2 * k)) ++
  ([0, 0, 0, 0, 0, 0, 1, 1] ++
   [0, 0, 0, 0, 0, 0, 0, 21] ++
   [0, 0, 0, 0, 0, 0, 0, 0] ++
   [0, 0, 0, 0, 0, 0, 0, 71])

/-- Plist whose top object is a one-entry dictionary whose key reference
resolves to the integer object 5 (not a string). -/
def c1cexBuf : List Nat :=
  magicBytes ++ [0, 0] ++
  [0xD1, 1, 2] ++ [0x10, 5] ++ [0x09] ++
  [8, 11, 13] ++
  ([0, 0, 0, 0, 0, 0, 1, 1] ++
   [0, 0, 0, 0, 0, 0, 0, 3] ++
   [0, 0, 0, 0, 0, 0, 0, 0] ++
   [0, 0, 0, 0, 0, 0, 0, 14])

/-- Minimal plist encoding the dictionary with the single entry
key `A`, value `true`. -/
def c1okBuf : List Nat :=
  magicBytes ++ [0, 0] ++
  [0xD1, 1, 2] ++ [0x51, 65] ++ [0x09] ++
  [8, 11, 13] ++
  ([0, 0, 0, 0, 0, 0, 1, 1] ++
   [0, 0, 0, 0, 0, 0, 0, 3] ++
   [0, 0, 0, 0, 0, 0, 0, 0] ++
   [0, 0, 0, 0, 0, 0, 0, 14])

/-- Plist whose top object is a two-entry dictionary in which both key
references resolve to the same string `A`; the first value is `false`
(table position 2), the second `true` (table position 3). -/
def c9buf : List Nat :=
  magicBytes ++ [0, 0] ++
  [0xD2, 1, 1, 2, 3] ++ [0x51, 65] ++ [0x08] ++ [0x09] ++
  [8, 13, 15, 16] ++
  ([0, 0, 0, 0, 0, 0, 1, 1] ++
   [0, 0, 0, 0, 0, 0, 0, 4] ++
   [0, 0, 0, 0, 0, 0, 0, 0] ++
   [0, 0, 0, 0, 0, 0, 0, 17])

/-- Plist whose top object is an integer with a 16-byte payload of all
zero bytes (tag byte 0x14). -/
def c10buf : List Nat :=
  magicBytes ++ [0, 0] ++
  ([0x14] ++ List.replicate 16 0) ++
  [8] ++
  ([0, 0, 0, 0, 0, 0, 1, 1] ++
   [0, 0, 0, 0, 0, 0, 0, 1] ++
   [0, 0, 0, 0, 0, 0, 0, 0] ++
   [0, 0, 0, 0, 0, 0, 0, 25])

/-! ## Helper lemmas -/

theorem exList_ok_length {α : Type} (f : Nat → Except JSError α) :
    ∀ (l : List Nat) (ys : List α), exList f l = .ok ys → ys.length = l.length := by
  intro l
  induction l with
  | nil =>
    intro ys h
    simp only [exList] at h
    cases h
    rfl
  | cons i is ih =>
    intro ys h
    simp only [exList] at h
    cases hf : f i with
    | error e => rw [hf] at h; cases h
    | ok y =>
      rw [hf] at h
      cases hrest : exList f is with
      | error e => rw [hrest] at h; cases h
      | ok zs =>
        rw [hrest] at h
        cases h
        simp [ih zs hrest]

theorem exList_ok_get {α : Type} (f : Nat → Except JSError α) :
    ∀ (l : List Nat) (ys : List α), exList f l = .ok ys →
      ∀ (i : Nat) (x : Nat), l[i]? = some x → ∃ y, ys[i]? = some y ∧ f x = .ok y := by
  intro l
  induction l with
  | nil =>
    intro ys h i x hx
    simp at hx
  | cons j js ih =>
    intro ys h i x hx
    simp only [exList] at h
    cases hf : f j with
    | error e => rw [hf] at h; cases h
    | ok y =>
      rw [hf] at h
      cases hrest : exList f js with
      | error e => rw [hrest] at h; cases h
      | ok zs =>
        rw [hrest] at h
        cases h
        cases i with
        | zero =>
          simp at hx
          subst hx
          exact ⟨y, by simp, hf⟩
        | succ i =>
          simp only [List.getElem?_cons_succ] at hx ⊢
          exact ih zs hrest i x hx

theorem lookup_cons_kv (k a : String) (v : Value) (es : List (String × Value)) :
    List.lookup k ((a, v) :: es) = if k == a then some v else List.lookup k es := by
  simp only [List.lookup]
  cases k == a <;> rfl

theorem lookup_append (k : String) :
    ∀ (l1 l2 : List (String × Value)),
      List.lookup k (l1 ++ l2) = (List.lookup k l1).or (List.lookup k l2) := by
  intro l1 l2
  induction l1 with
  | nil => simp
  | cons p rest ih =>
    rw [List.cons_append, ← p.eta, lookup_cons_kv, lookup_cons_kv]
    cases hk : k == p.1 with
    | false => simpa using ih
    | true => simp

theorem lookup_eq_none_of_any_false (k : String) :
    ∀ d : List (String × Value), d.any (fun kv => kv.1 == k) = false →
      List.lookup k d = none := by
  intro d
  induction d with
  | nil => intro _; rfl
  | cons p rest ih =>
    intro h
    rcases p with ⟨a, b⟩
    rw [List.any_cons, Bool.or_eq_false_iff] at h
    rw [lookup_cons_kv]
    have hne : ¬(k = a) := by
      intro hk
      rw [hk] at h
      simp at h
    simp only [beq_eq_false_iff_ne, ne_eq, beq_iff_eq, hne, if_false]
    exact ih h.2

theorem lookup_map_replace (k : String) (v : Value) (k0 : String) :
    ∀ d : List (String × Value),
      List.lookup k0 (d.map (fun kv => if kv.1 == k then (k, v) else kv))
        = if k0 == k then (if d.any (fun kv => kv.1 == k) then some v else none)
          else List.lookup k0 d := by
  intro d
  induction d with
  | nil => by_cases h : k0 = k <;> simp [List.lookup, h]
  | cons p rest ih =>
    rcases p with ⟨a, b⟩
    by_cases hak : a = k
    · by_cases hk0 : k0 = k <;> simp_all [lookup_cons_kv, List.any_cons]
    · by_cases hk0 : k0 = k
      · subst hk0
        have hb : (a == k0) = false := beq_eq_false_iff_ne.mpr hak
        have hka : ¬(k0 = a) := fun h => hak h.symm
        simp only [List.any_cons, hb, Bool.false_or]
        simp_all [lookup_cons_kv, hka]
      · simp_all [lookup_cons_kv, List.any_cons]

theorem jsObjectSet_lookup (d : List (String × Value)) (k : String) (v : Value) (k0 : String) :
    List.lookup k0 (jsObjectSet d k v) = if k0 == k then some v else List.lookup k0 d := by
  unfold jsObjectSet
  cases hany : d.any (fun kv => kv.1 == k) with
  | true =>
    rw [if_pos rfl, lookup_map_replace, hany]
    by_cases h : k0 = k <;> simp [h]
  | false =>
    rw [if_neg (by simp), lookup_append k0 d [(k, v)], lookup_cons_kv]
    by_cases hk0 : k0 = k
    · subst hk0
      rw [lookup_eq_none_of_any_false k0 d hany]
      simp
    · simp [hk0]

theorem map_fst_replace (k : String) (v : Value) :
    ∀ d : List (String × Value),
      (d.map (fun kv => if kv.1 == k then (k, v) else kv)).map Prod.fst
        = d.map Prod.fst := by
  intro d
  induction d with
  | nil => rfl
  | cons p rest ih =>
    rcases p with ⟨a, b⟩
    simp only [List.map_cons]
    rw [ih]
    by_cases hak : a = k
    · simp [hak]
    · simp [hak]

theorem jsObjectSet_keys_nodup (d : List (String × Value)) (k : String) (v : Value)
    (h : (d.map Prod.fst).Nodup) : ((jsObjectSet d k v).map Prod.fst).Nodup := by
  unfold jsObjectSet
  cases hany : d.any (fun kv => kv.1 == k) with
  | true =>
    rw [if_pos rfl, map_fst_replace]
    exact h
  | false =>
    rw [if_neg (by simp), List.map_append, List.nodup_append]
    refine ⟨h, by simp, ?_⟩
    intro a ha hb
    simp only [List.map_cons, List.map_nil, List.mem_singleton] at hb
    subst hb
    rw [List.any_eq_false] at hany
    simp only [List.mem_map] at ha
    obtain ⟨kv, hkv, hfst⟩ := ha
    have := hany kv hkv
    simp [hfst] at this

theorem foldl_jsObjectSet_lookup (k : String) :
    ∀ (pairs : List (String × Value)) (acc : List (String × Value)),
      List.lookup k (pairs.foldl (fun d kv => jsObjectSet d kv.1 kv.2) acc)
        = (List.lookup k pairs.reverse).or (List.lookup k acc) := by
  intro pairs
  induction pairs with
  | nil => simp
  | cons p rest ih =>
    intro acc
    rw [List.foldl_cons, ih, List.reverse_cons, lookup_append]
    rw [jsObjectSet_lookup]
    rw [Option.or_assoc]
    congr 1
    rw [← p.eta, lookup_cons_kv]
    cases hk : k == p.1 with
    | true => simp
    | false => simp

theorem foldl_jsObjectSet_nodup :
    ∀ (pairs acc : List (String × Value)), (acc.map Prod.fst).Nodup →
      (((pairs.foldl (fun d kv => jsObjectSet d kv.1 kv.2) acc)).map Prod.fst).Nodup := by
  intro pairs
  induction pairs with
  | nil => intro acc h; exact h
  | cons p rest ih =>
    intro acc h
    rw [List.foldl_cons]
    exact ih _ (jsObjectSet_keys_nodup _ _ _ h)

theorem hexDigitVal_hexDigitChar : ∀ d : Fin 16, hexDigitVal (hexDigitChar d.val) = some d.val := by
  decide

theorem foldl_append_data (l : List String) :
    ∀ s : String, (l.foldl (fun acc t => acc ++ t) s).data
      = s.data ++ (l.map String.data).flatten := by
  induction l with
  | nil => intro s; simp
  | cons t rest ih =>
    intro s
    rw [List.foldl_cons, ih, List.map_cons, List.flatten_cons, String.data_append]
    rw [List.append_assoc]

theorem join_data (l : List String) : (String.join l).data = (l.map String.data).flatten := by
  have : String.join l = l.foldl (fun a b => a ++ b) "" := rfl
  rw [this, foldl_append_data]
  rfl

theorem bufferToHexString_data (l : List Nat) :
    (bufferToHexString l).data
      = (l.dropWhile (fun b => b == 0)).flatMap
          (fun b => [hexDigitChar (b / 16), hexDigitChar (b % 16)]) := by
  unfold bufferToHexString
  rw [join_data, List.map_map, ← List.flatMap_def]
  rfl

theorem mapM_hex_digits :
    ∀ l : List Nat, (∀ b ∈ l, b < 256) →
      (l.flatMap (fun b => [hexDigitChar (b / 16), hexDigitChar (b % 16)])).mapM hexDigitVal
        = some (l.flatMap (fun b => [b / 16, b % 16])) := by
  intro l
  induction l with
  | nil => intro _; rfl
  | cons b rest ih =>
    intro h
    have hb : b < 256 := h b (by simp)
    have h1 : hexDigitVal (hexDigitChar (b / 16)) = some (b / 16) :=
      hexDigitVal_hexDigitChar ⟨b / 16, by omega⟩
    have h2 : hexDigitVal (hexDigitChar (b % 16)) = some (b % 16) :=
      hexDigitVal_hexDigitChar ⟨b % 16, by omega⟩
    have ih2 := ih (fun x hx => h x (by simp [hx]))
    rw [List.flatMap_cons, List.flatMap_cons]
    simp only [List.cons_append, List.nil_append]
    rw [List.mapM_cons, List.mapM_cons, h1, h2, ih2]
    rfl

theorem foldl_hex_pairs :
    ∀ (l : List Nat), (∀ b ∈ l, b < 256) → ∀ (acc : Nat),
      (l.flatMap (fun b => [b / 16, b % 16])).foldl (fun a d => 16 * a + d) acc
        = l.foldl (fun a b => 256 * a + b % 256) acc := by
  intro l
  induction l with
  | nil => intro _ acc; rfl
  | cons b rest ih =>
    intro h acc
    have hb : b < 256 := h b (by simp)
    rw [List.flatMap_cons]
    simp only [List.cons_append, List.nil_append, List.foldl_cons]
    rw [ih (fun x hx => h x (by simp [hx]))]
    congr 1
    omega

theorem beVal_dropWhile_zero : ∀ l : List Nat,
    beVal (l.dropWhile (fun b => b == 0)) = beVal l := by
  intro l
  induction l with
  | nil => rfl
  | cons b rest ih =>
    by_cases hb : b = 0
    · subst hb
      have h1 : (0 :: rest).dropWhile (fun b => b == 0)
          = rest.dropWhile (fun b => b == 0) := by
        rw [List.dropWhile_cons]
        simp
      rw [h1, ih]
      rfl
    · rw [List.dropWhile_cons]
      simp [hb]

theorem bigIntOfHex_bufferToHexString (l : List Nat) (hb : ∀ b ∈ l, b < 256)
    (hnz : ∃ b ∈ l, b ≠ 0) :
    bigIntOfHex (bufferToHexString l) = .ok ((beVal l : Nat) : Int) := by
  have hbl : ∀ b ∈ l.dropWhile (fun b => b == 0), b < 256 :=
    fun b hbm => hb b ((List.dropWhile_suffix _).subset hbm)
  have hne : l.dropWhile (fun b => b == 0) ≠ [] := by
    intro h0
    rw [List.dropWhile_eq_nil_iff] at h0
    obtain ⟨b, hbm, hbnz⟩ := hnz
    have := h0 b hbm
    simp at this
    exact hbnz this
  unfold bigIntOfHex
  rw [bufferToHexString_data, mapM_hex_digits _ hbl]
  cases hc : l.dropWhile (fun b => b == 0) with
  | nil => exact absurd hc hne
  | cons c t =>
    rw [List.flatMap_cons]
    simp only [List.cons_append, List.nil_append]
    have hbl2 : ∀ b ∈ c :: t, b < 256 := by
      intro b hbm
      exact hb b ((List.dropWhile_suffix _).subset (hc ▸ hbm))
    have hfold := foldl_hex_pairs (c :: t) hbl2 0
    rw [List.flatMap_cons] at hfold
    simp only [List.cons_append, List.nil_append] at hfold
    rw [hfold]
    have hbv : beVal (c :: t) = beVal l := by
      rw [← hc]
      exact beVal_dropWhile_zero l
    rw [show (c :: t).foldl (fun a b => 256 * a + b % 256) 0 = beVal l from hbv]

/-! ## Claim theorems -/

/-- C2 counterexample: `c2buf` has 37 bytes — fewer than the 38 of the
six-byte magic plus the 32-byte trailer — yet `parseBuffer` does not fail
at all: it decodes the buffer successfully to `false`, because the source
performs no minimum-length check before reading the trailer. -/
theorem C2_counterexample : c2buf.length = 37 ∧ parseBuffer c2buf = .ok (.bool false) :=
  ⟨rfl, rfl⟩

/-- C2 (amended): `parseBuffer` fails with the bad-magic `FormatError`
whenever the first six bytes are not exactly the ASCII magic `bplist`;
for short buffers with a valid magic there is no dedicated length check
(they may decode successfully, as `C2_counterexample` shows, or die on an
out-of-bounds trailer read). -/
theorem C2_bad_magic (buffer : List Nat) (h : buffer.take 6 ≠ magicBytes) :
    parseBuffer buffer = .error (.error "Invalid binary plist. Expected bplist at offset 0.") := by
  unfold parseBuffer
  rw [if_pos h]

/-- Witness for `C2_bad_magic` at a concrete three-byte buffer. -/
theorem C2_bad_magic_witness :
    parseBuffer [1, 2, 3] = .error (.error "Invalid binary plist. Expected bplist at offset 0.") :=
  C2_bad_magic [1, 2, 3] (by decide)

/-- C3 (code bug): the source constant `maxObjectSize` is `100 ** 8`,
which is `10 ^ 16`, not the documented 100,000,000 (its own comment says
100Meg); consequently a data object declaring a 1,000,000,000-byte payload
passes the heap guard of the V2 `parseData` and decoding returns a
truncated payload instead of failing before allocation. -/
theorem C3_maxObjectSize_bug :
    maxObjectSize = 10 ^ 16 ∧ maxObjectSize ≠ 100000000 ∧
    (1000000000 : Int) < (maxObjectSize : Int) ∧
    parseDataV2 c3buf 0 15 = .ok (.data [1, 2, 3, 4]) :=
  ⟨by norm_num [maxObjectSize], by norm_num [maxObjectSize],
   by norm_num [maxObjectSize], rfl⟩

/-- C4: whenever the magic matches, the buffer is long enough for the
trailer reads, and the eight bytes at `length - 24` (the `numObjects`
trailer field) exceed `maxObjectCount = 32768`, `parseBuffer` fails with
the `maxObjectCount exceeded` error.  The hypotheses place no constraint
whatsoever on the offset-table region: the guard fires before the offset
table is read. -/
theorem C4_object_count_guard (buffer : List Nat)
    (h1 : buffer.take 6 = magicBytes) (h2 : 32 ≤ buffer.length)
    (h3 : 32768 < beVal (jsSubarray buffer (buffer.length - 24) (buffer.length - 24 + 8))) :
    parseBuffer buffer = .error (.error "maxObjectCount exceeded") := by
  unfold parseBuffer
  rw [if_neg (by simp [h1])]
  have e1 : getUint8 buffer ((buffer.length : Int) - 32 + 6)
      = .ok (buffer.getD ((buffer.length : Int) - 32 + 6).toNat 0 % 256) := by
    unfold getUint8
    rw [if_pos ⟨by omega, by omega⟩]
  have e2 : getUint8 buffer ((buffer.length : Int) - 32 + 7)
      = .ok (buffer.getD ((buffer.length : Int) - 32 + 7).toNat 0 % 256) := by
    unfold getUint8
    rw [if_pos ⟨by omega, by omega⟩]
  have e3 : getBigUint64 buffer ((buffer.length : Int) - 32 + 8)
      = .ok (beVal (jsSubarray buffer (buffer.length - 24) (buffer.length - 24 + 8))) := by
    unfold getBigUint64
    rw [if_pos ⟨by omega, by omega⟩]
    have : ((buffer.length : Int) - 32 + 8).toNat = buffer.length - 24 := by omega
    rw [this]
  have e4 : getBigUint64 buffer ((buffer.length : Int) - 32 + 16)
      = .ok (beVal (jsSubarray buffer (buffer.length - 16) (buffer.length - 16 + 8))) := by
    unfold getBigUint64
    rw [if_pos ⟨by omega, by omega⟩]
    have : ((buffer.length : Int) - 32 + 16).toNat = buffer.length - 16 := by omega
    rw [this]
  have e5 : getBigUint64 buffer ((buffer.length : Int) - 32 + 24)
      = .ok (beVal (jsSubarray buffer (buffer.length - 8) (buffer.length - 8 + 8))) := by
    unfold getBigUint64
    rw [if_pos ⟨by omega, by omega⟩]
    have : ((buffer.length : Int) - 32 + 24).toNat = buffer.length - 8 := by omega
    rw [this]
  simp only [e1, e2, e3, e4, e5]
  rw [if_pos]
  unfold maxObjectCount
  exact h3

/-- Witness for `C4_object_count_guard`: a 38-byte buffer declaring
`numObjects = 40000` fails with the object-count error. -/
theorem C4_witness : parseBuffer c4buf = .error (.error "maxObjectCount exceeded") :=
  C4_object_count_guard c4buf (by decide) (by decide) (by decide)

/-- C6 counterexample: the V1 `readUInt` rejects a three-byte slice
outright, so an `offsetSize` or `objectRefSize` of 3 (which the claim says
must be handled) cannot be read at all. -/
theorem C6_counterexample :
    readUInt [1, 1, 1]
      = .error (.error "Unexpected Uint value length, support more than 1 or 2? Received 3") :=
  rfl

/-- C6 (amended): the V1 `readUInt` folds a slice into its MSB-first
unsigned magnitude only for the widths 1 and 2 — covering only
`offsetSize`/`objectRefSize` values 1 and 2 — and throws an `Error` for
every other width (3..8 and 16 included). -/
theorem C6_readUInt_widths :
    (∀ bs : List Nat, bs.length = 1 ∨ bs.length = 2 → readUInt bs = .ok (beVal bs)) ∧
    (∀ bs : List Nat, bs.length ≠ 1 → bs.length ≠ 2 →
      ∃ msg, readUInt bs = .error (.error msg)) := by
  constructor
  · intro bs h
    match bs with
    | [] => simp at h
    | [b0] => simp [readUInt, beVal]
    | [b0, b1] =>
      simp only [readUInt, beVal, List.foldl_cons, List.foldl_nil]
      norm_num [Nat.mul_comm]
    | b0 :: b1 :: b2 :: rest =>
      simp only [List.length_cons] at h
      omega
  · intro bs h1 h2
    match bs with
    | [] => exact ⟨_, rfl⟩
    | [b0] => exact absurd rfl h1
    | [b0, b1] => exact absurd rfl h2
    | b0 :: b1 :: b2 :: rest => exact ⟨_, rfl⟩

/-- Witness for `C6_readUInt_widths` at concrete slices of width 2 and 3. -/
theorem C6_witness : readUInt [0x12, 0x34] = .ok 0x1234 := by
  have h := C6_readUInt_widths.1 [0x12, 0x34] (Or.inr rfl)
  rw [h]
  rfl

/-- C8: the V2 `parsePlistString` never mutates the caller buffer: the
UTF-16 byte-order correction (`swapBytes`) operates on the private copy
made by `new Uint8Array(buffer.subarray(...))`, so on every path — ASCII,
UTF-16 and the failure branch alike — the buffer observable after the call
equals the buffer passed in. -/
theorem C8_no_caller_buffer_mutation (buffer : List Nat) (offset objInfo : Nat)
    (isUtf16 : Bool) : (parsePlistString2 buffer offset objInfo isUtf16).2 = buffer := by
  simp only [parsePlistString2]
  repeat' split
  all_goals rfl

/-- C5 counterexample: a 16-byte integer payload of all zero bytes does
not decode to the unsigned magnitude 0 — `parseInteger` throws the
`BigInt` syntax error instead, because the leading-zero stripping of
`bufferToHexString` leaves an empty digit string. -/
theorem C5_counterexample :
    parseIntegerAt (0x14 :: List.replicate 16 0) 0 4 = .error .syntaxError := rfl

/-- C5 (amended): an integer object with a 16-byte payload (`objInfo = 4`,
length `2 ^ 4 = 16`) containing at least one nonzero byte decodes to the
unsigned big-endian magnitude of the payload with no sign extension (the
value is a `Nat` cast into the arbitrary-precision result); the all-zero
payload is the single exception, failing as `C5_counterexample` shows. -/
theorem C5_sixteen_byte_integer (buffer : List Nat) (offset : Nat)
    (hb : ∀ b ∈ jsSubarray buffer (offset + 1) (offset + 1 + 2 ^ 4), b < 256)
    (hnz : ∃ b ∈ jsSubarray buffer (offset + 1) (offset + 1 + 2 ^ 4), b ≠ 0) :
    parseIntegerAt buffer offset 4
      = .ok (.bigint ((beVal (jsSubarray buffer (offset + 1) (offset + 1 + 2 ^ 4)) : Nat) : Int)) := by
  simp only [parseIntegerAt]
  rw [if_pos (by norm_num [maxObjectSize]), if_pos (by norm_num)]
  rw [bigIntOfHex_bufferToHexString _ hb hnz]

set_option maxRecDepth 10000 in
/-- Witness for `C5_sixteen_byte_integer`: the all-bits-set payload
decodes to `2 ^ 128 - 1`, not a negative number. -/
theorem C5_witness :
    parseIntegerAt (0x14 :: List.replicate 16 0xFF) 0 4 = .ok (.bigint (2 ^ 128 - 1)) := by
  have h := C5_sixteen_byte_integer (0x14 :: List.replicate 16 0xFF) 0 (by decide) (by decide)
  rw [h]
  rfl

/-- C10: an integer object whose 16-byte payload is entirely zero bytes
makes decoding fail with the `BigInt` syntax error rather than produce the
integer 0: the leading-zero-stripping `bufferToHexString` returns the
empty string and `BigInt("0x")` throws.  The second conjunct runs the
whole of `parseBuffer` on a plist whose top object is such an integer. -/
theorem C10_allzero_sixteen_byte_integer :
    (∀ (buffer : List Nat) (offset : Nat),
      jsSubarray buffer (offset + 1) (offset + 1 + 2 ^ 4) = List.replicate 16 0 →
      parseIntegerAt buffer offset 4 = .error .syntaxError) ∧
    parseBuffer c10buf = .error .syntaxError := by
  constructor
  · intro buffer offset h
    simp only [parseIntegerAt]
    rw [if_pos (by norm_num [maxObjectSize]), if_pos (by norm_num)]
    rw [h]
    rfl
  · rfl

/-- Witness for the first conjunct of `C10_allzero_sixteen_byte_integer`
at a concrete buffer. -/
theorem C10_witness :
    parseIntegerAt ([0x14] ++ List.replicate 16 0 ++ [7]) 0 4 = .error .syntaxError :=
  C10_allzero_sixteen_byte_integer.1 ([0x14] ++ List.replicate 16 0 ++ [7]) 0 (by decide)

/-- C9: dictionary entries are inserted with the JavaScript object
assignment `jsObjectSet`, under which every key occurs at most once and a
key duplicated among the decoded pairs keeps the value of its last
(highest table position) occurrence — the lookup over the built dictionary
equals the lookup over the reversed pair list.  Concretely, `c9buf`
(both keys `A`, values `false` then `true`) decodes to the one-entry
dictionary mapping `A` to `true`. -/
theorem C9_duplicate_keys_last_wins :
    (∀ (pairs : List (String × Value)),
      ((pairs.foldl (fun d kv => jsObjectSet d kv.1 kv.2) []).map Prod.fst).Nodup ∧
      ∀ k : String,
        List.lookup k (pairs.foldl (fun d kv => jsObjectSet d kv.1 kv.2) [])
          = List.lookup k pairs.reverse) ∧
    parseBuffer c9buf = .ok (.dict [("A", .bool true)]) := by
  constructor
  · intro pairs
    constructor
    · exact foldl_jsObjectSet_nodup pairs [] (by simp)
    · intro k
      rw [foldl_jsObjectSet_lookup k pairs []]
      simp
  · rfl

/-- C1: whenever `parseObject` decodes a dictionary object (tag nibble
0xD) successfully, the result is a dictionary and every one of its key
references decoded to a string: for each loop index below the declared
entry count, the key reference reads successfully and resolves to a
`.string` value.  Conversely — second conjunct — a dictionary whose first
key reference resolves to an integer makes the whole `parseBuffer` fail
with the key-type `FormatError`, returning no partial tree (the thrown
error is the only outcome). -/
theorem C1_dictionary_keys_must_be_strings :
    (∀ (buffer offsetTable : List Nat) (objectRefSize fuel tableOffset offset : Nat) (v : Value),
      offsetTable.get? tableOffset = some offset →
      buffer.getD offset 0 / 16 = 13 →
      parseObjectAt buffer offsetTable objectRefSize (fuel + 1) tableOffset = .ok v →
      ∃ entries len doff, v = .dict entries ∧
        lengthExt buffer offset (buffer.getD offset 0 % 16) = .ok (len, doff) ∧
        ∀ i, i < len → ∃ keyRef s,
          readUInt (jsSubarray buffer (offset + doff + i * objectRefSize)
            (offset + doff + (i + 1) * objectRefSize)) = .ok keyRef ∧
          parseObjectAt buffer offsetTable objectRefSize fuel keyRef = .ok (.string s)) ∧
    parseBuffer c1cexBuf
      = .error (.error "Parsed unexpected property key type, should be a string.") := by
  constructor
  · intro buffer offsetTable objectRefSize fuel tableOffset offset v h1 h2 h3
    rw [parseObjectAt] at h3
    rw [h1] at h3
    simp only [h2] at h3
    split at h3
    · cases h3
    · rename_i length dictoffset hle
      split at h3
      · cases h3
      · split at h3
        · cases h3
        · rename_i pairs hex
          cases h3
          refine ⟨_, length, dictoffset, rfl, hle, ?_⟩
          intro i hi
          obtain ⟨y, hy, hf⟩ := exList_ok_get _ (List.range length) pairs hex i i
            (by simp [List.getElem?_range, hi])
          split at hf
          · cases hf
          · rename_i keyRef hk1
            split at hf
            · cases hf
            · rename_i valRef hk2
              split at hf
              · cases hf
              · rename_i s hkey
                exact ⟨keyRef, s, hk1, hkey⟩
              · cases hf
  · rfl

set_option maxRecDepth 20000 in
/-- Witness for the first conjunct of `C1_dictionary_keys_must_be_strings`
at the minimal one-entry plist `c1okBuf`, whose single key decodes to the
string `A`. -/
theorem C1_witness :
    ∃ entries len doff, Value.dict [("A", Value.bool true)] = .dict entries ∧
      lengthExt c1okBuf 8 (c1okBuf.getD 8 0 % 16) = .ok (len, doff) ∧
      ∀ i, i < len → ∃ keyRef s,
        readUInt (jsSubarray c1okBuf (8 + doff + i * 1) (8 + doff + (i + 1) * 1))
          = .ok keyRef ∧
        parseObjectAt c1okBuf [8, 11, 13] 1 50 keyRef = .ok (.string s) :=
  C1_dictionary_keys_must_be_strings.1 c1okBuf [8, 11, 13] 1 50 0 8
    (.dict [("A", .bool true)]) rfl (by decide) rfl

set_option maxRecDepth 40000 in
/-- C7: an array object with `objInfo < 15` (first conjunct) stores its
element count inline: a successful decode yields an array of exactly
`objInfo` elements.  An array with the sentinel `objInfo = 0xF` (second
conjunct) reads its true count `n` from the nested length integer whose
width exponent is the low nibble of the marker byte at `offset + 1`, and
its element references begin `1 + 1 + 2 ^ exponent` bytes past the type
byte: a successful decode is an array of exactly `n` elements whose `i`-th
element is the recursive decode of the `i`-th reference, in order.  Third
conjunct: the 20-integer array `c7buf` (extended form) decodes to the
ordered sequence 1..20. -/
theorem C7_array_count_forms :
    (∀ (buffer offsetTable : List Nat)
      (objectRefSize fuel tableOffset offset info : Nat) (v : Value),
      offsetTable.get? tableOffset = some offset →
      buffer.getD offset 0 = 160 + info → info < 15 →
      parseObjectAt buffer offsetTable objectRefSize (fuel + 1) tableOffset = .ok v →
      ∃ es, v = .array es ∧ es.length = info) ∧
    (∀ (buffer offsetTable : List Nat)
      (objectRefSize fuel tableOffset offset e n : Nat) (v : Value),
      offsetTable.get? tableOffset = some offset →
      buffer.getD offset 0 = 175 →
      buffer.getD (offset + 1) 0 % 16 = e →
      readUInt (jsSubarray buffer (offset + 2) (offset + 2 + 2 ^ e)) = .ok n →
      parseObjectAt buffer offsetTable objectRefSize (fuel + 1) tableOffset = .ok v →
      ∃ es, v = .array es ∧ es.length = n ∧
        ∀ i, i < n → ∃ r y,
          readUInt (jsSubarray buffer (offset + (2 + 2 ^ e) + i * objectRefSize)
            (offset + (2 + 2 ^ e) + (i + 1) * objectRefSize)) = .ok r ∧
          parseObjectAt buffer offsetTable objectRefSize fuel r = .ok y ∧
          es[i]? = some y) ∧
    parseBuffer c7buf
      = .ok (.array ((List.range 20).map (fun i : Nat => Value.integer (Int.ofNat i + 1)))) := by
  refine ⟨?_, ?_, rfl⟩
  · intro buffer offsetTable objectRefSize fuel tableOffset offset info v h1 hbyte hlt h3
    rw [parseObjectAt] at h3
    rw [h1] at h3
    have hdiv : buffer.getD offset 0 / 16 = 10 := by omega
    have hmod : buffer.getD offset 0 % 16 = info := by omega
    have hle : lengthExt buffer offset (buffer.getD offset 0 % 16) = .ok (info, 1) := by
      rw [hmod]
      simp only [lengthExt]
      rw [if_neg (by omega)]
    simp only [hdiv] at h3
    rw [hle] at h3
    dsimp only at h3
    split at h3
    · cases h3
    · split at h3
      · cases h3
      · rename_i elems hex
        cases h3
        refine ⟨elems, rfl, ?_⟩
        rw [exList_ok_length _ _ _ hex]
        simp
  · intro buffer offsetTable objectRefSize fuel tableOffset offset e n v h1 hbyte he hn h3
    rw [parseObjectAt] at h3
    rw [h1] at h3
    have hdiv : buffer.getD offset 0 / 16 = 10 := by omega
    have hmod : buffer.getD offset 0 % 16 = 15 := by omega
    have hle : lengthExt buffer offset (buffer.getD offset 0 % 16) = .ok (n, 2 + 2 ^ e) := by
      rw [hmod]
      simp only [lengthExt, if_pos]
      rw [he, hn]
    simp only [hdiv] at h3
    rw [hle] at h3
    dsimp only at h3
    split at h3
    · cases h3
    · split at h3
      · cases h3
      · rename_i elems hex
        cases h3
        refine ⟨elems, rfl, ?_, ?_⟩
        · rw [exList_ok_length _ _ _ hex]
          simp
        · intro i hi
          obtain ⟨y, hy, hf⟩ := exList_ok_get _ (List.range n) elems hex i i
            (by simp [List.getElem?_range, hi])
          split at hf
          · cases hf
          · rename_i r hk
            exact ⟨r, y, hk, hf, hy⟩

set_option maxRecDepth 20000 in
/-- Witness for the two general conjuncts of `C7_array_count_forms`: a
two-element inline array (byte 0xA2) and a twenty-element extended array
(`c7buf`, marker exponent 0, count byte 20). -/
theorem C7_witness :
    (∃ es, Value.array [Value.bool true, Value.bool false] = .array es ∧ es.length = 2) ∧
    (∃ es, Value.array ((List.range 20).map (fun i : Nat => Value.integer (Int.ofNat i + 1)))
        = .array es ∧
      es.length = 20 ∧
      ∀ i, i < 20 → ∃ r y,
        readUInt (jsSubarray c7buf (8 + (2 + 2 ^ 0) + i * 1) (8 + (2 + 2 ^ 0) + (i + 1) * 1))
          = .ok r ∧
        parseObjectAt c7buf ([8] ++ (List.range 20).map (fun k => 31 + 2 * k)) 1 1 r = .ok y ∧
        (Value.array ((List.range 20).map (fun i : Nat => Value.integer (Int.ofNat i + 1)))
          = .array es → es[i]? = some y)) := by
  constructor
  · exact C7_array_count_forms.1 [0xA2, 1, 2, 0x09, 0x08] [0, 3, 4] 1 1 0 0 2
      (.array [.bool true, .bool false]) rfl (by decide) (by decide) rfl
  · have hcount : readUInt (jsSubarray c7buf (8 + 2) (8 + 2 + 2 ^ 0)) = .ok 20 := rfl
    have hparse : parseObjectAt c7buf ([8] ++ (List.range 20).map (fun k => 31 + 2 * k)) 1
        (1 + 1) 0
        = .ok (.array ((List.range 20).map (fun i : Nat => Value.integer (Int.ofNat i + 1)))) :=
      rfl
    obtain ⟨es, hes, hlen, hel⟩ := C7_array_count_forms.2.1 c7buf
      ([8] ++ (List.range 20).map (fun k => 31 + 2 * k)) 1 1 0 8 0 20
      (.array ((List.range 20).map (fun i : Nat => Value.integer (Int.ofNat i + 1))))
      (by decide) (by decide) (by decide) hcount hparse
    exact ⟨es, hes, hlen, fun i hi => by
      obtain ⟨r, y, h1, h2, h3⟩ := hel i hi
      exact ⟨r, y, h1, h2, fun _ => h3⟩⟩

end BplistProof
